import Mathlib

/-
Verification development for the per-turn decision engine in
python-algo/algo_strategy.py (class AlgoStrategy).

The game-engine library (gamelib) is an external collaborator: its queries
are modelled as fields of an abstract game-state record, and the
fire-and-forget placement/upgrade/removal/spawn requests are modelled as an
emitted list of commands (the turn plan).  Machine arithmetic of the game is
ordinary integer arithmetic, so resources and damage values are `Int`.
-/

/-- A board coordinate pair `[x, y]`. -/
abbrev Location := Int × Int

/-- Unit archetypes, in the order their shorthands are read from
`config["unitInformation"]` in `on_game_start`. -/
inductive UnitType
  | WALL
  | SUPPORT
  | TURRET
  | SCOUT
  | DEMOLISHER
  | INTERCEPTOR
  deriving DecidableEq, Repr

/-- One request issued to the game-engine collaborator during a turn:
`attempt_spawn(u, locs, num)`, `attempt_upgrade(locs)` or
`attempt_remove(locs)`.  A call made with a single location is recorded
with a one-element list. -/
inductive Command
  | spawn (u : UnitType) (locs : List Location) (num : Nat)
  | upgrade (locs : List Location)
  | remove (locs : List Location)
  deriving DecidableEq, Repr

/-- Abstract snapshot of the game-engine collaborator interface consumed by
the strategy during one turn (the queries of spec section 6).  Resource
kinds follow the source's constants `SP = 0` (structure points) and
`MP = 1` (mobility points); `get_resource kind player` models
`game_state.get_resource(kind, player)`, `project_future_MP` models
`game_state.project_future_MP()`, `get_attackers loc p` returns the handles
of the stationary attackers of player `p` in range of `loc`, and
`turret_damage_i` is the per-shot damage constant
`gamelib.GameUnit(TURRET, config).damage_i`. -/
structure GameState where
  turn_number : Nat
  get_resource : Nat → Nat → Int
  project_future_MP : Int
  contains_stationary_unit : Location → Bool
  find_path_to_edge : Location → List Location
  get_attackers : Location → Nat → List Nat
  turret_damage_i : Int
  edge_locations_top_left : List Location
  edge_locations_top_right : List Location

/-- Transcription of `compute_damage` (algo_strategy.py lines 127-132):
walk the forced path from `start_location` and accumulate, for every
location on it, the number of attackers of `player_index` in range times
the turret archetype's per-shot damage constant. -/
def compute_damage (gs : GameState) (start_location : Location) (player_index : Nat) : Int :=
  (gs.find_path_to_edge start_location).foldl
    (fun damage location =>
      damage + ((gs.get_attackers location player_index).length : Int) * gs.turret_damage_i)
    0

/-- Transcription of `least_damage_spawn_location` (lines 135-142).  The
Python body computes the damage list, then evaluates
`location_options[damages.index(min(damages))]`; `min` of an empty list
raises, which is modelled by `none`. -/
def least_damage_spawn_location (gs : GameState) (location_options : List Location) :
    Option Location :=
  let damages := location_options.map (fun loc => compute_damage gs loc 0)
  match damages.min? with
  | none => none
  | some m => location_options[damages.indexOf m]?

/-- The candidate list `enemy_options` of `enemy_least_damage_target`
(line 122): all edge locations of the two opponent-side edges. -/
def enemy_options (gs : GameState) : List Location :=
  gs.edge_locations_top_left ++ gs.edge_locations_top_right

/-- Transcription of `enemy_least_damage_target` (lines 121-125).  The
Python body returns `(find_path_to_edge(enemy_options[idx])[-1], damages[idx])`
for `idx = damages.index(min(damages))`; indexing `[-1]` into an empty path
raises IndexError, which is modelled by `none` (as is an empty candidate
list, where `min` would raise). -/
def enemy_least_damage_target (gs : GameState) : Option (Location × Int) :=
  let damages := (enemy_options gs).map (fun loc => compute_damage gs loc 1)
  match damages.min? with
  | none => none
  | some m =>
    match (enemy_options gs)[damages.indexOf m]? with
    | none => none
    | some cand => ((gs.find_path_to_edge cand).getLast?).map (fun tgt => (tgt, m))

/-- The turn-0 perimeter `wall_locations` (line 79). -/
def wall_locations : List Location :=
  [(0,13),(1,13),(2,13),(2,12),(3,12),(4,11),(7,10),(8,9),(9,10),(10,9),
   (17,9),(18,10),(19,9),(20,10),(23,11),(24,12),(25,12),(25,13),(26,13),(27,13)]

/-- The list `left_tunnel` (line 87). -/
def left_tunnel : List Location := [(2,13),(2,12),(3,12),(6,10)]

/-- The list `right_tunnel` (line 88). -/
def right_tunnel : List Location := [(24,12),(25,12),(25,13),(21,10)]

/-- The list `reinforce_location` (line 92). -/
def reinforce_location : List Location := [(0,13),(27,13),(1,12),(26,12),(4,11),(23,11)]

/-- The list `mid_location = [[i,9] for i in range(11,17)]` (line 93). -/
def mid_location : List Location := [(11,9),(12,9),(13,9),(14,9),(15,9),(16,9)]

/-- The slice `mid_location[1:6:2]` (line 97): indices 1, 3, 5. -/
def mid_location_odd : List Location := [(12,9),(14,9),(16,9)]

/-- The slice `mid_location[0:6:2]` (line 108): indices 0, 2, 4. -/
def mid_location_even : List Location := [(11,9),(13,9),(15,9)]

/-- The list `left_location` (line 94). -/
def left_location : List Location := [(1,12),(3,13),(6,10),(4,12),(5,11)]

/-- The list `right_location` (line 95). -/
def right_location : List Location := [(26,12),(24,13),(21,10),(23,12),(22,11)]

/-- The inline scout candidate row of line 116. -/
def scout_spawn_options : List Location :=
  [(10,3),(11,2),(12,1),(13,0),(14,0),(15,1),(16,2),(17,3)]

/-- Transcription of `starter_strategy` (lines 69-117) as the ordered list
of requests it issues to the collaborator.  Pieces appear in source order:
turn-0 bootstrap, baseline turrets and upgrades, tunnel fill gated on
`get_resource(1,0) <= 11`, fixed wall layout, the upgrade-or-build
reinforcement pass, the remaining layout, tunnel removal gated on
`project_future_MP() > 11 and get_resource(1,0) <= 11`, and the scout push
gated on `get_resource(1,0) > 11`. -/
def starter_strategy (gs : GameState) : List Command :=
  (if gs.turn_number = 0 then [Command.spawn UnitType.WALL wall_locations 1] else [])
  ++ [Command.spawn UnitType.TURRET [(2,11),(25,11)] 1,
      Command.upgrade [(2,11),(25,11)],
      Command.spawn UnitType.TURRET [(9,9),(18,9)] 1]
  ++ (if gs.get_resource 1 0 ≤ 11
      then [Command.spawn UnitType.WALL (left_tunnel ++ right_tunnel) 1] else [])
  ++ [Command.spawn UnitType.WALL mid_location_odd 1]
  ++ (List.range 3).map (fun i =>
       Command.spawn UnitType.WALL [left_location.getD i (0,0), right_location.getD i (0,0)] 1)
  ++ [Command.upgrade [(9,9),(18,9)]]
  ++ reinforce_location.map (fun x =>
       if gs.contains_stationary_unit x
       then Command.upgrade [x]
       else Command.spawn UnitType.WALL [x] 1)
  ++ (List.range' 3 2).map (fun i =>
       Command.spawn UnitType.WALL [left_location.getD i (0,0), right_location.getD i (0,0)] 1)
  ++ [Command.spawn UnitType.WALL mid_location_even 1]
  ++ (if gs.project_future_MP > 11 ∧ gs.get_resource 1 0 ≤ 11
      then [Command.remove left_tunnel, Command.remove right_tunnel] else [])
  ++ (if gs.get_resource 1 0 > 11
      then
        match least_damage_spawn_location gs scout_spawn_options with
        | some start => [Command.spawn UnitType.SCOUT [start] 100]
        | none => []
      else [])

/-- One breach event of an action frame.  The source reads `breach[0]`
(the location) and `breach[4]` (the integer owner code: 1 is the algo
itself, 2 is the opponent); the other components of the event are never
read and are omitted from the model. -/
structure BreachEvent where
  location : Location
  owner : Int
  deriving DecidableEq, Repr

/-- Transcription of the loop body of `on_action_frame` (lines 155-163)
after JSON decoding: for each breach event, append its location to
`scored_on_locations` unless the owner code is exactly 1. -/
def on_action_frame (scored_on_locations : List Location) (breaches : List BreachEvent) :
    List Location :=
  breaches.foldl
    (fun scored breach =>
      let unit_owner_self := breach.owner == 1
      if unit_owner_self then scored else scored ++ [breach.location])
    scored_on_locations

/-- A whole sequence of `on_action_frame` calls, one per delivered batch. -/
def on_action_frames (scored_on_locations : List Location) (batches : List (List BreachEvent)) :
    List Location :=
  batches.foldl on_action_frame scored_on_locations

/-- Recognizer for scout-deployment requests in a turn plan. -/
def isScoutSpawn : Command → Bool
  | Command.spawn UnitType.SCOUT _ _ => true
  | _ => false

/-- The tunnel-filler wall request of line 90. -/
def tunnelFillCmd : Command :=
  Command.spawn UnitType.WALL (left_tunnel ++ right_tunnel) 1

/-- A concrete collaborator snapshot with an empty board: every path is
empty, no attackers anywhere, all resources zero. -/
def stateZ : GameState :=
  { turn_number := 0
    get_resource := fun _ _ => 0
    project_future_MP := 0
    contains_stationary_unit := fun _ => false
    find_path_to_edge := fun _ => []
    get_attackers := fun _ _ => []
    turret_damage_i := 6
    edge_locations_top_left := []
    edge_locations_top_right := [] }

/-- A concrete snapshot where every unit path is the one-step path through
its own start square, the square `(0,0)` has five attackers in range and
every other square has three, with per-shot damage 1: the candidate row
`[(0,0),(1,1),(2,2)]` then scores `[5, 3, 3]`, a tie on the minimum. -/
def stateW : GameState :=
  { turn_number := 0
    get_resource := fun _ _ => 0
    project_future_MP := 0
    contains_stationary_unit := fun _ => false
    find_path_to_edge := fun l => [l]
    get_attackers := fun l _ => if l = (0,0) then [0,0,0,0,0] else [0,0,0]
    turret_damage_i := 1
    edge_locations_top_left := []
    edge_locations_top_right := [] }

/-- A concrete snapshot with structure resource 12 and mobility resource 5. -/
def stateA : GameState :=
  { turn_number := 1
    get_resource := fun kind _ => if kind = 0 then 12 else 5
    project_future_MP := 5
    contains_stationary_unit := fun _ => false
    find_path_to_edge := fun _ => []
    get_attackers := fun _ _ => []
    turret_damage_i := 6
    edge_locations_top_left := []
    edge_locations_top_right := [] }

/-- A concrete snapshot with structure resource 3 and mobility resource 12. -/
def stateB : GameState :=
  { turn_number := 2
    get_resource := fun kind _ => if kind = 0 then 3 else 12
    project_future_MP := 16
    contains_stationary_unit := fun _ => false
    find_path_to_edge := fun l => [l]
    get_attackers := fun _ _ => []
    turret_damage_i := 6
    edge_locations_top_left := []
    edge_locations_top_right := [] }

/-- A concrete snapshot with structure resource 11, mobility resource 20
and projected future mobility 15. -/
def stateC : GameState :=
  { turn_number := 4
    get_resource := fun kind _ => if kind = 0 then 11 else 20
    project_future_MP := 15
    contains_stationary_unit := fun _ => false
    find_path_to_edge := fun _ => []
    get_attackers := fun _ _ => []
    turret_damage_i := 6
    edge_locations_top_left := []
    edge_locations_top_right := [] }

/-- A concrete snapshot with structure resource 50, mobility resource 11
and projected future mobility 15. -/
def stateC' : GameState :=
  { turn_number := 4
    get_resource := fun kind _ => if kind = 0 then 50 else 11
    project_future_MP := 15
    contains_stationary_unit := fun _ => false
    find_path_to_edge := fun _ => []
    get_attackers := fun _ _ => []
    turret_damage_i := 6
    edge_locations_top_left := []
    edge_locations_top_right := []  }

/-- A concrete snapshot with one candidate per opposing edge and non-empty
forced paths; no attackers, so both candidates score 0 and the first one,
`(0,14)`, is the minimum-damage candidate.  Its path ends at `(13,0)`. -/
def stateD : GameState :=
  { turn_number := 3
    get_resource := fun _ _ => 0
    project_future_MP := 0
    contains_stationary_unit := fun _ => false
    find_path_to_edge := fun l =>
      if l = (0,14) then [(0,14),(1,13),(13,0)] else [(27,14),(26,13),(14,0)]
    get_attackers := fun _ _ => []
    turret_damage_i := 6
    edge_locations_top_left := [(0,14)]
    edge_locations_top_right := [(27,14)] }

/-- A concrete snapshot with a non-empty opponent edge candidate list where
every forced path is empty (no legal route anywhere). -/
def stateE : GameState :=
  { turn_number := 3
    get_resource := fun _ _ => 0
    project_future_MP := 0
    contains_stationary_unit := fun _ => false
    find_path_to_edge := fun _ => []
    get_attackers := fun _ _ => []
    turret_damage_i := 6
    edge_locations_top_left := [(0,14)]
    edge_locations_top_right := [(27,14)] }

/-- The breach scenario of the spec: one batch whose single event at
`(5,7)` belongs to the opponent (owner code 2), then one batch whose
single event at `(6,7)` belongs to the defender (owner code 1). -/
def batches0 : List (List BreachEvent) :=
  [[{ location := (5,7), owner := 2 }], [{ location := (6,7), owner := 1 }]]

/-! ## Helper lemmas -/

theorem foldl_add_sum {α : Type} (f : α → Int) (l : List α) :
    ∀ init : Int, l.foldl (fun d x => d + f x) init = init + (l.map f).sum := by
  induction l with
  | nil => intro init; simp
  | cons x xs ih =>
    intro init
    simp only [List.foldl_cons, List.map_cons, List.sum_cons]
    rw [ih]
    ring

/-- The damage accumulator of `compute_damage` is the sum of the per-path
contributions. -/
theorem compute_damage_eq_sum (gs : GameState) (loc : Location) (p : Nat) :
    compute_damage gs loc p =
      ((gs.find_path_to_edge loc).map
        (fun l => ((gs.get_attackers l p).length : Int) * gs.turret_damage_i)).sum := by
  unfold compute_damage
  rw [foldl_add_sum]
  ring

theorem on_action_frame_eq :
    ∀ (breaches : List BreachEvent) (scored : List Location),
      on_action_frame scored breaches =
        scored ++ (breaches.filter (fun b => !(b.owner == 1))).map (fun b => b.location) := by
  intro breaches
  induction breaches with
  | nil => intro scored; simp [on_action_frame]
  | cons b bs ih =>
    intro scored
    by_cases hb : b.owner = 1
    · have h1 := ih scored
      simp only [on_action_frame] at h1 ⊢
      simp only [List.foldl_cons]
      rw [if_pos (show (b.owner == 1) = true by simp [hb])]
      rw [h1]
      simp [List.filter_cons, hb]
    · have h1 := ih (scored ++ [b.location])
      simp only [on_action_frame] at h1 ⊢
      simp only [List.foldl_cons]
      rw [if_neg (show ¬ (b.owner == 1) = true by simp [hb])]
      rw [h1]
      simp [List.filter_cons, hb]

theorem on_action_frames_eq :
    ∀ (batches : List (List BreachEvent)) (scored : List Location),
      on_action_frames scored batches =
        scored ++ ((batches.join).filter (fun b => !(b.owner == 1))).map (fun b => b.location) := by
  intro batches
  induction batches with
  | nil => intro scored; simp [on_action_frames]
  | cons batch bs ih =>
    intro scored
    have h1 : on_action_frames scored (batch :: bs)
        = on_action_frames (on_action_frame scored batch) bs := rfl
    rw [h1, ih, on_action_frame_eq]
    simp [List.filter_append, List.append_assoc]

theorem foldl_min_le (t : List Int) :
    ∀ a : Int, t.foldl min a ≤ a ∧ ∀ x ∈ t, t.foldl min a ≤ x := by
  induction t with
  | nil => intro a; exact ⟨le_refl a, by simp⟩
  | cons b s ih =>
    intro a
    have h := ih (min a b)
    refine ⟨le_trans h.1 (min_le_left a b), ?_⟩
    intro x hx
    rcases List.mem_cons.1 hx with rfl | hx
    · exact le_trans h.1 (min_le_right a x)
    · exact h.2 x hx

/-- Every entry strictly before the first occurrence of `a` differs from `a`. -/
theorem getElem?_lt_indexOf_ne :
    ∀ (l : List Int) (a : Int) (j : Nat), j < l.indexOf a → ∀ x, l[j]? = some x → x ≠ a := by
  intro l a
  induction l with
  | nil => intro j hj; simp [List.indexOf_nil] at hj
  | cons b t ih =>
    intro j hj x hx
    by_cases hb : b = a
    · rw [List.indexOf_cons_eq _ hb] at hj; omega
    · rw [List.indexOf_cons_ne _ hb] at hj
      cases j with
      | zero =>
        simp only [List.getElem?_cons_zero, Option.some.injEq] at hx
        rw [← hx]; exact hb
      | succ j =>
        rw [List.getElem?_cons_succ] at hx
        exact ih j (by omega) x hx

/-- Combined specification of `damages.index(min(damages))` on a non-empty
integer list: the minimum value exists, its first index is in bounds and
holds the minimum, every entry is at least the minimum, and every entry
strictly before that index is strictly greater. -/
theorem min_index_spec (l : List Int) (h : l ≠ []) :
    ∃ m, l.min? = some m ∧ l.indexOf m < l.length ∧ l[l.indexOf m]? = some m ∧
      (∀ x ∈ l, m ≤ x) ∧ (∀ j, j < l.indexOf m → ∀ x, l[j]? = some x → m < x) := by
  obtain ⟨a, t, rfl⟩ : ∃ a t, l = a :: t := by
    cases l with
    | nil => exact absurd rfl h
    | cons a t => exact ⟨a, t, rfl⟩
  refine ⟨t.foldl min a, List.min?_cons', ?_, ?_, ?_, ?_⟩
  · exact List.indexOf_lt_length.2 (List.min?_mem min_choice List.min?_cons')
  · exact List.getElem?_indexOf (List.min?_mem min_choice List.min?_cons')
  · intro x hx
    rcases List.mem_cons.1 hx with rfl | hx
    · exact (foldl_min_le t x).1
    · exact (foldl_min_le t a).2 x hx
  · intro j hj x hx
    have hxm : x ∈ a :: t := List.getElem?_mem hx
    have hle : t.foldl min a ≤ x := by
      rcases List.mem_cons.1 hxm with h1 | h1
      · rw [h1]; exact (foldl_min_le t a).1
      · exact (foldl_min_le t a).2 x h1
    have hne : x ≠ t.foldl min a := getElem?_lt_indexOf_ne _ _ j hj x hx
    exact lt_of_le_of_ne hle (Ne.symm hne)

/-- On a non-empty candidate list the spawn selector succeeds. -/
theorem least_damage_spawn_location_isSome (gs : GameState) (opts : List Location)
    (h : opts ≠ []) : ∃ loc, least_damage_spawn_location gs opts = some loc := by
  have hd : opts.map (fun loc => compute_damage gs loc 0) ≠ [] := by
    simpa using h
  obtain ⟨m, hm, hlt, _, _, _⟩ := min_index_spec _ hd
  have hlt' : (opts.map (fun loc => compute_damage gs loc 0)).indexOf m < opts.length := by
    simpa using hlt
  refine ⟨opts.get ⟨(opts.map (fun loc => compute_damage gs loc 0)).indexOf m, hlt'⟩, ?_⟩
  simp only [least_damage_spawn_location]
  rw [hm]
  exact List.getElem?_eq_getElem hlt'

/-! ## Claim theorems -/

/-- C2: on every non-empty candidate list, `least_damage_spawn_location`
returns a candidate of the list whose estimated damage is less than or
equal to that of every other candidate, and when several candidates tie on
the minimum it returns the first in input order: every candidate strictly
before the returned one has strictly larger damage. -/
theorem claim_C2 (gs : GameState) (opts : List Location) (h : opts ≠ []) :
    ∃ (i : Nat) (loc : Location), opts[i]? = some loc ∧
      least_damage_spawn_location gs opts = some loc ∧
      loc ∈ opts ∧
      (∀ l ∈ opts, compute_damage gs loc 0 ≤ compute_damage gs l 0) ∧
      (∀ j, j < i → ∀ l', opts[j]? = some l' →
        compute_damage gs loc 0 < compute_damage gs l' 0) := by
  have hd : opts.map (fun loc => compute_damage gs loc 0) ≠ [] := by simpa using h
  obtain ⟨m, hm, hlt, hget, hle, hfirst⟩ := min_index_spec _ hd
  set damages := opts.map (fun loc => compute_damage gs loc 0) with hdam
  set i := damages.indexOf m with hi
  have hlen : damages.length = opts.length := by rw [hdam]; simp
  have hiopts : i < opts.length := by rw [← hlen]; exact hlt
  obtain ⟨loc, hloc⟩ : ∃ loc, opts[i]? = some loc :=
    ⟨opts.get ⟨i, hiopts⟩, List.getElem?_eq_getElem hiopts⟩
  have hdi : damages[i]? = some (compute_damage gs loc 0) := by
    rw [hdam, List.getElem?_map, hloc]
    rfl
  have hlocm : compute_damage gs loc 0 = m := Option.some.inj (hdi.symm.trans hget)
  refine ⟨i, loc, hloc, ?_, List.getElem?_mem hloc, ?_, ?_⟩
  · simp only [least_damage_spawn_location]
    rw [← hdam, hm]
    exact hloc
  · intro l hl
    have hmem : compute_damage gs l 0 ∈ damages := by
      rw [hdam]
      exact List.mem_map_of_mem _ hl
    rw [hlocm]
    exact hle _ hmem
  · intro j hj l' hl'
    have hdj : damages[j]? = some (compute_damage gs l' 0) := by
      rw [hdam, List.getElem?_map, hl']
      rfl
    rw [hlocm]
    exact hfirst j hj _ hdj

/-- C2 witness: on the tie scenario of `stateW` with candidates scoring
`[5, 3, 3]`, the selector picks the second candidate — the first of the two
tied minima. -/
theorem claim_C2_witness :
    (([(0,0),(1,1),(2,2)] : List Location) ≠ []) ∧
    (∃ (i : Nat) (loc : Location), ([(0,0),(1,1),(2,2)] : List Location)[i]? = some loc ∧
      least_damage_spawn_location stateW [(0,0),(1,1),(2,2)] = some loc ∧
      loc ∈ ([(0,0),(1,1),(2,2)] : List Location) ∧
      (∀ l ∈ ([(0,0),(1,1),(2,2)] : List Location),
        compute_damage stateW loc 0 ≤ compute_damage stateW l 0) ∧
      (∀ j, j < i → ∀ l', ([(0,0),(1,1),(2,2)] : List Location)[j]? = some l' →
        compute_damage stateW loc 0 < compute_damage stateW l' 0)) ∧
    least_damage_spawn_location stateW [(0,0),(1,1),(2,2)] = some (1,1) :=
  ⟨by decide, claim_C2 stateW [(0,0),(1,1),(2,2)] (by decide), by decide⟩

/-- C3: the damage estimate is the sum, over the locations of the forced
path, of the attacker count in range times the turret per-shot damage
constant; it is 0 on an empty path and 0 when no attacker is in range of
any path location. -/
theorem claim_C3 (gs : GameState) (loc : Location) (p : Nat) :
    compute_damage gs loc p =
      ((gs.find_path_to_edge loc).map
        (fun l => ((gs.get_attackers l p).length : Int) * gs.turret_damage_i)).sum
    ∧ (gs.find_path_to_edge loc = [] → compute_damage gs loc p = 0)
    ∧ ((∀ l ∈ gs.find_path_to_edge loc, gs.get_attackers l p = []) →
        compute_damage gs loc p = 0) := by
  refine ⟨compute_damage_eq_sum gs loc p, ?_, ?_⟩
  · intro hpath
    rw [compute_damage_eq_sum, hpath]
    simp
  · intro hatt
    rw [compute_damage_eq_sum]
    apply List.sum_eq_zero
    intro x hx
    obtain ⟨l, hl, rfl⟩ := List.mem_map.1 hx
    rw [hatt l hl]
    simp

/-- C3 witness: on the empty board `stateZ` the path from `(0,0)` is empty
and the damage estimate is exactly 0. -/
theorem claim_C3_witness :
    stateZ.find_path_to_edge (0,0) = [] ∧ compute_damage stateZ (0,0) 0 = 0 :=
  ⟨rfl, (claim_C3 stateZ (0,0) 0).2.1 rfl⟩

/-- C7: the spawn selector fails exactly on the empty candidate list. -/
theorem claim_C7 (gs : GameState) (opts : List Location) :
    least_damage_spawn_location gs opts = none ↔ opts = [] := by
  constructor
  · intro hnone
    by_contra hne
    obtain ⟨loc, hloc⟩ := least_damage_spawn_location_isSome gs opts hne
    rw [hloc] at hnone
    exact Option.noConfusion hnone
  · rintro rfl
    rfl

/-- C8: the damage estimate is non-negative whenever the configured
per-shot turret damage constant is non-negative. -/
theorem claim_C8 (gs : GameState) (loc : Location) (p : Nat)
    (h : 0 ≤ gs.turret_damage_i) : 0 ≤ compute_damage gs loc p := by
  rw [compute_damage_eq_sum]
  apply List.sum_nonneg
  intro x hx
  obtain ⟨l, hl, rfl⟩ := List.mem_map.1 hx
  exact mul_nonneg (Nat.cast_nonneg _) h

/-- C8 witness: instantiated on `stateW`, whose turret damage constant 1 is
non-negative. -/
theorem claim_C8_witness :
    (0 : Int) ≤ stateW.turret_damage_i ∧ 0 ≤ compute_damage stateW (5,5) 0 :=
  ⟨by decide, claim_C8 stateW (5,5) 0 (by decide)⟩

/-- C10: a breach event is classified as the algo's own exactly when its
owner code equals 1; the location of every event with any other owner
value, well-formed or not, is appended in order. -/
theorem claim_C10 (scored : List Location) (breaches : List BreachEvent) :
    on_action_frame scored breaches =
      scored ++ (breaches.filter (fun b => !(b.owner == 1))).map (fun b => b.location) :=
  on_action_frame_eq breaches scored

/-- C6: across any sequence of `on_action_frame` calls the breach history
only grows by appending, its length is non-decreasing, and when every
event's owner code is one of the two defined values (1 = self,
2 = opponent), the processed history is the initial history followed
exactly, in arrival order, by the locations of the opponent-owned events. -/
theorem claim_C6 (scored : List Location) (batches : List (List BreachEvent)) :
    (∃ tail, on_action_frames scored batches = scored ++ tail)
    ∧ scored.length ≤ (on_action_frames scored batches).length
    ∧ ((∀ batch ∈ batches, ∀ b ∈ batch, b.owner = 1 ∨ b.owner = 2) →
        on_action_frames scored batches =
          scored ++ ((batches.join).filter (fun b => b.owner == 2)).map (fun b => b.location)) := by
  refine ⟨⟨_, on_action_frames_eq batches scored⟩, ?_, ?_⟩
  · rw [on_action_frames_eq]
    simp
  · intro h
    have hfe : (batches.join).filter (fun b => !(b.owner == 1))
        = (batches.join).filter (fun b => b.owner == 2) := by
      apply List.filter_congr
      intro b hb
      obtain ⟨batch, hbatch, hbb⟩ := List.mem_join.1 hb
      rcases h batch hbatch b hbb with h1 | h1 <;> simp [h1]
    rw [on_action_frames_eq, hfe]

/-- C6 witness: the spec scenario — an opponent-owned breach at `(5,7)`
followed by a self-owned breach at `(6,7)` leaves exactly `[(5,7)]`. -/
theorem claim_C6_witness :
    (∀ batch ∈ batches0, ∀ b ∈ batch, b.owner = 1 ∨ b.owner = 2)
    ∧ on_action_frames [] batches0 =
        [] ++ ((batches0.join).filter (fun b => b.owner == 2)).map (fun b => b.location)
    ∧ on_action_frames [] batches0 = [(5,7)] :=
  ⟨by decide, (claim_C6 [] batches0).2.2 (by decide), by decide⟩

/-- Shape of whatever the offensive-push piece of the plan can contain. -/
theorem scout_piece_shape (gs : GameState) (c : Command) :
    c ∈ (match least_damage_spawn_location gs scout_spawn_options with
         | some start => [Command.spawn UnitType.SCOUT [start] 100]
         | none => ([] : List Command)) →
    ∃ s, c = Command.spawn UnitType.SCOUT [s] 100 := by
  intro hc
  rcases hh : least_damage_spawn_location gs scout_spawn_options with _ | s
  · rw [hh] at hc
    exact absurd hc (List.not_mem_nil _)
  · rw [hh] at hc
    simp only [List.mem_singleton] at hc
    exact ⟨s, hc⟩

/-- The tunnel-filler wall request appears in the plan exactly when the
mobility resource is at most 11. -/
theorem tunnel_fill_mem_iff (gs : GameState) :
    tunnelFillCmd ∈ starter_strategy gs ↔ gs.get_resource 1 0 ≤ 11 := by
  constructor
  · intro hmem
    simp only [starter_strategy, List.mem_append, or_assoc] at hmem
    rcases hmem with h|h|h|h|h|h|h|h|h|h|h
    · revert h
      split
      · intro h; exact absurd h (by decide)
      · intro h; exact absurd h (List.not_mem_nil _)
    · exact absurd h (by decide)
    · revert h
      split
      · intro _; assumption
      · intro h; exact absurd h (List.not_mem_nil _)
    · exact absurd h (by decide)
    · exact absurd h (by decide)
    · exact absurd h (by decide)
    · exfalso
      obtain ⟨x, _, hcx⟩ := List.mem_map.1 h
      revert hcx
      split
      · intro hcx
        simp [tunnelFillCmd] at hcx
      · intro hcx
        simp [tunnelFillCmd, left_tunnel, right_tunnel] at hcx
    · exact absurd h (by decide)
    · exact absurd h (by decide)
    · revert h
      split
      · intro h; exact absurd h (by decide)
      · intro h; exact absurd h (List.not_mem_nil _)
    · revert h
      split
      · intro h
        obtain ⟨s, hs⟩ := scout_piece_shape gs _ h
        simp [tunnelFillCmd] at hs
      · intro h; exact absurd h (List.not_mem_nil _)
  · intro hle
    simp only [starter_strategy, List.mem_append, or_assoc]
    refine Or.inr (Or.inr (Or.inl ?_))
    rw [if_pos hle]
    exact List.mem_singleton.2 rfl

/-- A removal request can only come from the tunnel-release step, so its
presence implies the release predicate. -/
theorem remove_mem_cond (gs : GameState) (locs : List Location) :
    Command.remove locs ∈ starter_strategy gs →
    gs.project_future_MP > 11 ∧ gs.get_resource 1 0 ≤ 11 := by
  intro hmem
  simp only [starter_strategy, List.mem_append, or_assoc] at hmem
  rcases hmem with h|h|h|h|h|h|h|h|h|h|h
  · revert h
    split
    · intro h; simp at h
    · intro h; exact absurd h (List.not_mem_nil _)
  · simp at h
  · revert h
    split
    · intro h; simp at h
    · intro h; exact absurd h (List.not_mem_nil _)
  · simp at h
  · exfalso
    obtain ⟨i, _, hci⟩ := List.mem_map.1 h
    simp at hci
  · simp at h
  · exfalso
    obtain ⟨x, _, hcx⟩ := List.mem_map.1 h
    revert hcx
    split
    · intro hcx; simp at hcx
    · intro hcx; simp at hcx
  · exfalso
    obtain ⟨i, _, hci⟩ := List.mem_map.1 h
    simp at hci
  · simp at h
  · revert h
    split
    · intro _; assumption
    · intro h; exact absurd h (List.not_mem_nil _)
  · revert h
    split
    · intro h
      obtain ⟨s, hs⟩ := scout_piece_shape gs _ h
      simp at hs
    · intro h; exact absurd h (List.not_mem_nil _)

/-- C1 counterexample: in `stateA` the structure resource is 12 (above the
threshold), yet the tunnel-filler walls are requested and no scout
deployment is requested, because the code gates both on the mobility
resource (here 5), not the structure resource. -/
theorem claim_C1_counterexample :
    stateA.get_resource 0 0 = 12 ∧
    tunnelFillCmd ∈ starter_strategy stateA ∧
    (∀ c ∈ starter_strategy stateA, isScoutSpawn c = false) := by decide

/-- C1 (amended): the tunnel-filler walls are requested exactly when the
current mobility resource is at most 11; in particular, when the mobility
resource is 12 no tunnel-filler walls are requested and offensive scout
deployment is requested instead. -/
theorem claim_C1 (gs : GameState) :
    (tunnelFillCmd ∈ starter_strategy gs ↔ gs.get_resource 1 0 ≤ 11)
    ∧ (gs.get_resource 1 0 = 12 →
        tunnelFillCmd ∉ starter_strategy gs ∧
        ∃ c ∈ starter_strategy gs, isScoutSpawn c = true) := by
  refine ⟨tunnel_fill_mem_iff gs, ?_⟩
  intro h12
  constructor
  · intro hmem
    have h := (tunnel_fill_mem_iff gs).1 hmem
    omega
  · obtain ⟨s, hs⟩ := least_damage_spawn_location_isSome gs scout_spawn_options (by decide)
    refine ⟨Command.spawn UnitType.SCOUT [s] 100, ?_, rfl⟩
    simp only [starter_strategy, List.mem_append, or_assoc]
    refine Or.inr (Or.inr (Or.inr (Or.inr (Or.inr (Or.inr (Or.inr (Or.inr (Or.inr
      (Or.inr ?_)))))))))
    rw [if_pos (show gs.get_resource 1 0 > 11 by omega), hs]
    exact List.mem_singleton.2 rfl

/-- C1 witness: in `stateB` the mobility resource is 12; the plan omits the
tunnel-filler walls and contains a scout deployment. -/
theorem claim_C1_witness :
    stateB.get_resource 1 0 = 12 ∧
    (tunnelFillCmd ∉ starter_strategy stateB ∧
     ∃ c ∈ starter_strategy stateB, isScoutSpawn c = true) :=
  ⟨by decide, (claim_C1 stateB).2 (by decide)⟩

/-- C5 counterexample: in `stateC` the structure resource is 11 and the
projected future mobility is 15, yet no tunnel removal is requested,
because the code's second conjunct reads the current mobility resource
(here 20), not the structure resource. -/
theorem claim_C5_counterexample :
    stateC.get_resource 0 0 = 11 ∧ stateC.project_future_MP = 15 ∧
    Command.remove left_tunnel ∉ starter_strategy stateC ∧
    Command.remove right_tunnel ∉ starter_strategy stateC := by decide

/-- C5 (amended): removal of the tunnel-filler walls is requested exactly
when the projected future mobility resource exceeds 11 and the current
mobility resource is at most 11; in particular, with current mobility 11
and projected mobility 15, tunnel removal is requested. -/
theorem claim_C5 (gs : GameState) :
    ((Command.remove left_tunnel ∈ starter_strategy gs ∧
      Command.remove right_tunnel ∈ starter_strategy gs) ↔
      (gs.project_future_MP > 11 ∧ gs.get_resource 1 0 ≤ 11))
    ∧ (gs.get_resource 1 0 = 11 → gs.project_future_MP = 15 →
        Command.remove left_tunnel ∈ starter_strategy gs ∧
        Command.remove right_tunnel ∈ starter_strategy gs) := by
  have hback : (gs.project_future_MP > 11 ∧ gs.get_resource 1 0 ≤ 11) →
      Command.remove left_tunnel ∈ starter_strategy gs ∧
      Command.remove right_tunnel ∈ starter_strategy gs := by
    intro hc
    constructor <;>
    · simp only [starter_strategy, List.mem_append, or_assoc]
      refine Or.inr (Or.inr (Or.inr (Or.inr (Or.inr (Or.inr (Or.inr (Or.inr (Or.inr
        (Or.inl ?_)))))))))
      rw [if_pos hc]
      simp
  refine ⟨⟨fun h => remove_mem_cond gs left_tunnel h.1, hback⟩, ?_⟩
  intro h11 h15
  exact hback ⟨by omega, by omega⟩

/-- C5 witness: in `stateC'` the current mobility resource is 11 and the
projected future mobility is 15; both tunnel removal requests are in the
plan. -/
theorem claim_C5_witness :
    stateC'.get_resource 1 0 = 11 ∧ stateC'.project_future_MP = 15 ∧
    (Command.remove left_tunnel ∈ starter_strategy stateC' ∧
     Command.remove right_tunnel ∈ starter_strategy stateC') :=
  ⟨by decide, by decide, (claim_C5 stateC').2 (by decide) (by decide)⟩

/-- Full behaviour of `enemy_least_damage_target` on a non-empty candidate
list: it selects the first minimum-damage candidate of
`enemy_options` and returns the last location of that candidate's forced
path paired with the candidate's damage score (failing when the path is
empty). -/
theorem enemy_least_damage_target_spec (gs : GameState) (h : enemy_options gs ≠ []) :
    ∃ (i : Nat) (loc : Location) (m : Int),
      (enemy_options gs)[i]? = some loc ∧
      compute_damage gs loc 1 = m ∧
      (∀ l ∈ enemy_options gs, m ≤ compute_damage gs l 1) ∧
      (∀ j, j < i → ∀ l', (enemy_options gs)[j]? = some l' → m < compute_damage gs l' 1) ∧
      enemy_least_damage_target gs
        = ((gs.find_path_to_edge loc).getLast?).map (fun tgt => (tgt, m)) := by
  have hd : (enemy_options gs).map (fun loc => compute_damage gs loc 1) ≠ [] := by
    simpa using h
  obtain ⟨m, hm, hlt, hget, hle, hfirst⟩ := min_index_spec _ hd
  set damages := (enemy_options gs).map (fun loc => compute_damage gs loc 1) with hdam
  have hlen : damages.length = (enemy_options gs).length := by rw [hdam]; simp
  have hiopts : damages.indexOf m < (enemy_options gs).length := by rw [← hlen]; exact hlt
  obtain ⟨loc, hloc⟩ : ∃ loc, (enemy_options gs)[damages.indexOf m]? = some loc :=
    ⟨(enemy_options gs).get ⟨damages.indexOf m, hiopts⟩, List.getElem?_eq_getElem hiopts⟩
  have hdi : damages[damages.indexOf m]? = some (compute_damage gs loc 1) := by
    rw [hdam, List.getElem?_map, hloc]
    rfl
  have hlocm : compute_damage gs loc 1 = m := Option.some.inj (hdi.symm.trans hget)
  refine ⟨damages.indexOf m, loc, m, hloc, hlocm, ?_, ?_, ?_⟩
  · intro l hl
    have hmem : compute_damage gs l 1 ∈ damages := by
      rw [hdam]
      exact List.mem_map_of_mem _ hl
    exact hle _ hmem
  · intro j hj l' hl'
    have hdj : damages[j]? = some (compute_damage gs l' 1) := by
      rw [hdam, List.getElem?_map, hl']
      rfl
    exact hfirst j hj _ hdj
  · simp only [enemy_least_damage_target]
    rw [← hdam, hm]
    show (match (enemy_options gs)[damages.indexOf m]? with
          | none => none
          | some cand => ((gs.find_path_to_edge cand).getLast?).map (fun tgt => (tgt, m)))
        = ((gs.find_path_to_edge loc).getLast?).map (fun tgt => (tgt, m))
    rw [hloc]

/-- C4 counterexample: in `stateD` the minimum-damage candidate is `(0,14)`
but the returned pair's location is `(13,0)`, the last location of that
candidate's forced path — not a member of the candidate set at all. -/
theorem claim_C4_counterexample :
    enemy_least_damage_target stateD = some ((13,0), 0) ∧
    ((13,0) ∉ enemy_options stateD) := by decide

/-- C4 (amended): on a non-empty candidate set,
`enemy_least_damage_target` picks the first minimum-damage candidate among
the opponent-side edge locations and returns the pair of the last location
of that candidate's forced path (not the candidate itself) and the
candidate's damage score. -/
theorem claim_C4 (gs : GameState) (h : enemy_options gs ≠ []) :
    ∃ (i : Nat) (loc : Location) (m : Int),
      (enemy_options gs)[i]? = some loc ∧
      compute_damage gs loc 1 = m ∧
      (∀ l ∈ enemy_options gs, m ≤ compute_damage gs l 1) ∧
      (∀ j, j < i → ∀ l', (enemy_options gs)[j]? = some l' → m < compute_damage gs l' 1) ∧
      ∀ tgt, (gs.find_path_to_edge loc).getLast? = some tgt →
        enemy_least_damage_target gs = some (tgt, m) := by
  obtain ⟨i, loc, m, hloc, hlocm, hbound, hfirst, heq⟩ := enemy_least_damage_target_spec gs h
  refine ⟨i, loc, m, hloc, hlocm, hbound, hfirst, ?_⟩
  intro tgt htgt
  rw [heq, htgt]
  rfl

/-- C4 witness: instantiated on `stateD`, whose candidate list
`[(0,14),(27,14)]` is non-empty. -/
theorem claim_C4_witness :
    (enemy_options stateD ≠ []) ∧
    (∃ (i : Nat) (loc : Location) (m : Int),
      (enemy_options stateD)[i]? = some loc ∧
      compute_damage stateD loc 1 = m ∧
      (∀ l ∈ enemy_options stateD, m ≤ compute_damage stateD l 1) ∧
      (∀ j, j < i → ∀ l', (enemy_options stateD)[j]? = some l' →
        m < compute_damage stateD l' 1) ∧
      ∀ tgt, (stateD.find_path_to_edge loc).getLast? = some tgt →
        enemy_least_damage_target stateD = some (tgt, m)) :=
  ⟨by decide, claim_C4 stateD (by decide)⟩

/-- C9: indexing the last path element can fail — in `stateE` the
candidate list is non-empty but every forced path is empty, and the
operation fails instead of returning a pair; conversely, whenever every
candidate's forced path is non-empty the operation returns a pair, so the
precondition for success is that the selected candidate's path is
non-empty. -/
theorem claim_C9 :
    (enemy_options stateE ≠ [] ∧
     (∀ l ∈ enemy_options stateE, stateE.find_path_to_edge l = []) ∧
     enemy_least_damage_target stateE = none)
    ∧ ∀ gs : GameState, enemy_options gs ≠ [] →
        (∀ l ∈ enemy_options gs, gs.find_path_to_edge l ≠ []) →
        (enemy_least_damage_target gs).isSome = true := by
  refine ⟨by decide, ?_⟩
  intro gs h hpaths
  obtain ⟨i, loc, m, hloc, _, _, _, heq⟩ := enemy_least_damage_target_spec gs h
  have hne : gs.find_path_to_edge loc ≠ [] := hpaths loc (List.getElem?_mem hloc)
  have hsome : (gs.find_path_to_edge loc).getLast?.isSome = true :=
    List.getLast?_isSome.2 hne
  obtain ⟨tgt, htgt⟩ := Option.isSome_iff_exists.1 hsome
  rw [heq, htgt]
  rfl

/-- C9 witness: on `stateD`, whose candidates all have non-empty forced
paths, the operation succeeds. -/
theorem claim_C9_witness :
    (enemy_options stateD ≠ []) ∧
    (∀ l ∈ enemy_options stateD, stateD.find_path_to_edge l ≠ []) ∧
    (enemy_least_damage_target stateD).isSome = true :=
  ⟨by decide, by decide, claim_C9.2 stateD (by decide) (by decide)⟩
